import Mathlib

/-!
Shallow embedding of the HDF5 Blosc filter (`src/blosc_filter.c`) and proofs
about its specified behaviour.

The file models the two functions of the repository that the claims are about:

* `blosc_set_local` — the per-dataset parameter-setup hook (lines 177-244 of
  the source); and
* `blosc_filter`    — the per-chunk compress/decompress hook (lines 248-389).

The Blosc codec library and the HDF5 host are external collaborators of this
repository (the spec treats them as an opaque codec with a name-indexed
registry, and as an error sink).  They are modelled as parameters:

* `Codec` packages the five Blosc entry points the filter calls
  (`blosc_compcode_to_compname`, `blosc_list_compressors`,
  `blosc_compress_ctx`, `blosc_cbuffer_sizes`, `blosc_decompress_ctx`);
* the HDF5 error sink (`H5Epush` via the `PUSH_ERR` macro) is modelled by
  recording the pushed errors, in order, in the outcome;
* `malloc` success/failure is an oracle bit in `FilterConfig`;
* the preprocessor condition `H5Epush_vers == 2` (HDF5 1.8.x error API versus
  the 1.6.x one) is the other bit of `FilterConfig`, because the source
  compiles to different control flow under it.

Machine integers: the parameter slots are C `unsigned` (32-bit) values and
`blosc_set_local` computes the chunk byte size in an `unsigned int`, so those
computations are reduced `% 4294967296`; C conversions of a 32-bit unsigned
value to a signed `int` (compression level, shuffle flag, compressor code) are
modelled by `toInt32`.
-/

/-- The modulus `2^32` of C `unsigned int` arithmetic. -/
def uint32Mod : Nat := 4294967296

/-- C conversion of an `unsigned` (32-bit) value to a signed `int`, as done by
the assignments `clevel = cd_values[4]`, `doshuffle = cd_values[5]` and
`compcode = cd_values[6]` in the source. -/
def toInt32 (n : Nat) : Int :=
  if n % uint32Mod < 2147483648 then ((n % uint32Mod : Nat) : Int)
  else ((n % uint32Mod : Nat) : Int) - 4294967296

/-- Constant `H5Z_FLAG_REVERSE` from the HDF5 public headers: the bit of
`flags` that marks a decompression (read-direction) invocation of the filter. -/
def H5Z_FLAG_REVERSE : Nat := 256

/-- Constant `BLOSC_MAX_TYPESIZE` from `blosc.h`: the largest element size the
shuffle supports (255). -/
def BLOSC_MAX_TYPESIZE : Nat := 255

/-- Modelled from the spec: `FILTER_BLOSC_VERSION` comes from `blosc_filter.h`,
which is not under `src/`; it is the "encoding-format revision" stored in
slot 0.  No claim depends on its numeric value. -/
def FILTER_BLOSC_VERSION : Nat := 2

/-- Modelled from the spec: `BLOSC_VERSION_FORMAT` comes from `blosc.h`
(external codec library); it is the codec version tag stored in slot 1.
No claim depends on its numeric value. -/
def BLOSC_VERSION_FORMAT : Nat := 2

/-! The dataset element type, as seen through the HDF5 type inspection API.

`blosc_set_local` only queries `H5Tget_size`, `H5Tget_class` (for whether the
type is an `H5T_ARRAY`) and `H5Tget_super` (the immediate base type of an
array type).  A fixed-size array type multiplies the size of its base type by
its number of elements; array types may be nested. -/

inductive Dtype where
  | scalar (size : Nat)
  | array (base : Dtype) (nelems : Nat)
  deriving Repr, DecidableEq

/-- Function `H5Tget_size`: total size in bytes of the type. -/
def H5Tget_size : Dtype → Nat
  | Dtype.scalar s => s
  | Dtype.array base n => n * H5Tget_size base

/-- The size of the innermost scalar of a (possibly nested) array type.  This
definition follows the words of the specification claim ("the size of the
innermost scalar when the type is a fixed-size array type"), to be compared
with what the source computes (which unwraps exactly one level). -/
def baseScalarSize : Dtype → Nat
  | Dtype.scalar s => s
  | Dtype.array base _ => baseScalarSize base

/-! Embedding of `blosc_set_local`.

Source lines 177-244.  The function reads the currently stored parameter
array of the dataset creation property list (at most 8 slots, missing slots
read as 0), forces at least 4 slots, overwrites slots 0-3 and writes the
array back.  Inputs:

* `dtype`     — the dataset element type (`type` argument);
* `chunkdims` — the chunk dimension extents returned by `H5Pget_chunk`;
* `existing`  — the cd_values currently stored for the Blosc filter in the
  dataset creation property list (read by `GET_FILTER`).

The result is the parameter array passed to `H5Pmodify_filter`, or `none` for
the error returns (`return -1`). -/
def blosc_set_local (dtype : Dtype) (chunkdims : List Nat) (existing : List Nat) :
    Option (List Nat) :=
  -- size_t nelements = 8; unsigned int values[] = {0,0,0,0,0,0,0,0};
  -- GET_FILTER(dcpl, FILTER_BLOSC, &flags, &nelements, values, 0, NULL);
  let nelements0 := min existing.length 8
  let values0 := existing.take 8 ++ List.replicate (8 - nelements0) 0
  -- if(nelements < 4) nelements = 4;  /* First 4 slots reserved. */
  let nelements := if nelements0 < 4 then 4 else nelements0
  -- values[0] = FILTER_BLOSC_VERSION; values[1] = BLOSC_VERSION_FORMAT;
  let values1 := (values0.set 0 FILTER_BLOSC_VERSION).set 1 BLOSC_VERSION_FORMAT
  -- ndims = H5Pget_chunk(dcpl, 32, chunkdims); if(ndims>32) return -1;
  let ndims := chunkdims.length
  if 32 < ndims then none
  else
    -- unsigned int typesize = H5Tget_size(type); if (typesize==0) return -1;
    let typesize := H5Tget_size dtype % uint32Mod
    if typesize = 0 then none
    else
      -- classt = H5Tget_class(type);
      -- if (classt == H5T_ARRAY) basetypesize = H5Tget_size(H5Tget_super(type));
      -- else basetypesize = typesize;
      let basetypesize :=
        match dtype with
        | Dtype.array base _ => H5Tget_size base % uint32Mod
        | Dtype.scalar _ => typesize
      -- if (basetypesize > BLOSC_MAX_TYPESIZE) basetypesize = 1;
      let basetypesize2 := if BLOSC_MAX_TYPESIZE < basetypesize then 1 else basetypesize
      let values2 := values1.set 2 basetypesize2
      -- unsigned int bufsize = typesize; for (i=0; i<ndims; i++) bufsize *= chunkdims[i];
      let bufsize := chunkdims.foldl (fun b d => b * d % uint32Mod) typesize
      let values3 := values2.set 3 bufsize
      -- r = H5Pmodify_filter(dcpl, FILTER_BLOSC, flags, nelements, values);
      some (values3.take nelements)

/-! The opaque codec and the filter's observables. -/

/-- The arguments of `blosc_compress_ctx(clevel, doshuffle, typesize, nbytes,
*buf, outbuf, nbytes, compname, 0, 1)`, as far as they are observable through
this embedding (the scratch destination pointer itself is not a value).
`destsize` is the 7th argument, the destination-capacity limit announced to
the codec.  `compname` is the compressor-name pointer; `none` models a NULL
pointer. -/
structure CompressArgs where
  clevel : Int
  doshuffle : Int
  typesize : Nat
  nbytes : Nat
  src : List Nat
  destsize : Nat
  compname : Option String
  deriving Repr, DecidableEq

/-- The arguments of `blosc_decompress_ctx(*buf, outbuf, outbuf_size, 1)`:
the source buffer and the destination-capacity limit. -/
structure DecompressArgs where
  src : List Nat
  destsize : Nat
  deriving Repr, DecidableEq

/-- The Blosc codec library, an external collaborator of this repository,
abstracted by the five entry points `blosc_filter` calls.
`blosc_compcode_to_compname` returns `some name` when the library supports the
compressor code (C return value 0, `*compname` set to the name) and `none`
when it does not (C return value -1, `*compname` set to NULL).
`blosc_cbuffer_sizes` reads `(nbytes, cbytes, blocksize)` from the
self-describing header at the start of a compressed payload. -/
structure Codec where
  blosc_compcode_to_compname : Int → Option String
  blosc_list_compressors : String
  blosc_compress_ctx : CompressArgs → Int
  blosc_cbuffer_sizes : List Nat → Nat × Nat × Nat
  blosc_decompress_ctx : DecompressArgs → Int

/-- Build-and-environment bits that select between the source's paths:
`h5epushVers2` is the preprocessor condition `H5Epush_vers == 2` (HDF5 1.8.x
error API; the 1.6.x API otherwise), and `mallocOk` is whether the single
`malloc` performed by the call succeeds. -/
structure FilterConfig where
  h5epushVers2 : Bool
  mallocOk : Bool
  deriving Repr, DecidableEq

/-- The errors `blosc_filter` can push to the HDF5 error sink via `PUSH_ERR`,
in the order they appear in the source. -/
inductive FilterError where
  | unsupportedCompressor (compcode : Int) (complist : String)
  | allocCompress
  | compressError
  | allocDecompress
  | decompressError
  deriving Repr, DecidableEq

/-- The result of the optional-parameter decoding phase (source lines
256-293): the compression level, the shuffle flag, the compressor-name
pointer handed to the codec (`none` is a NULL pointer), and the errors
pushed to the sink during decoding. -/
structure DecodedParams where
  clevel : Int
  doshuffle : Int
  compname : Option String
  pushedErrors : List FilterError
  deriving Repr, DecidableEq

/-- Everything observable about one `blosc_filter` call:

* `ret`            — the return value (`0` is the failed/fallback signal,
                     otherwise the codec status, i.e. the logical result length);
* `bufReplaced`    — whether `*buf` was overwritten with the scratch output
                     buffer (`false` means `*buf` still holds the caller's
                     input buffer, untouched);
* `buf_size`       — the value of `*buf_size` after the call;
* `errors`         — the errors pushed to the HDF5 error sink, in order;
* `inputFreed`     — whether `free(*buf)` was called on the caller's input;
* `scratchAlloc`   — `some capacity` iff the `malloc` of the scratch output
                     buffer was performed and succeeded, with its capacity;
* `scratchFrees`   — how many times the allocated scratch buffer was freed
                     (`free(NULL)` no-ops are not counted);
* `compressCall`   — the arguments of the `blosc_compress_ctx` call, if made;
* `decompressCall` — the arguments of the `blosc_decompress_ctx` call, if made. -/
structure FilterOutcome where
  ret : Int
  bufReplaced : Bool
  buf_size : Nat
  errors : List FilterError
  inputFreed : Bool
  scratchAlloc : Option Nat
  scratchFrees : Nat
  compressCall : Option CompressArgs
  decompressCall : Option DecompressArgs
  deriving Repr, DecidableEq

/-- The `failed:` label at the end of `blosc_filter` (source lines 385-387):
`free(outbuf); return 0;`.  The free releases the scratch buffer exactly when
one was allocated (`free(NULL)` is a no-op); `*buf` and `*buf_size` are left
as the caller passed them and the input buffer is not freed. -/
def failedExit (errors : List FilterError) (scratchAlloc : Option Nat) (buf_size : Nat)
    (compressCall : Option CompressArgs) (decompressCall : Option DecompressArgs) :
    FilterOutcome :=
  { ret := 0
    bufReplaced := false
    buf_size := buf_size
    errors := errors
    inputFreed := false
    scratchAlloc := scratchAlloc
    scratchFrees := if scratchAlloc.isSome then 1 else 0
    compressCall := compressCall
    decompressCall := decompressCall }

/-- The optional-parameter decoding of `blosc_filter` (source lines 256-293),
the spec's "Preparing" phase: compression level from slot 4, shuffle flag from
slot 5, compressor id from slot 6, with the in-source defaults when absent.

* `Except.error e` models the `goto failed` taken from the unsupported-
  compressor check with `outbuf` still NULL (only reachable under the 1.6.x
  error API: under `H5Epush_vers == 2` the source has no `goto` here);
* `Except.ok p` is normal continuation, with `p.pushedErrors` the errors
  pushed to the sink so far (the unsupported-compressor error is pushed but
  not fatal under `H5Epush_vers == 2`, and then `compname`, overwritten by
  `blosc_compcode_to_compname`, is NULL). -/
def decodeParams (cfg : FilterConfig) (codec : Codec) (cd_values : List Nat) :
    Except FilterError DecodedParams :=
  -- int clevel = 5; if (cd_nelmts >= 5) clevel = cd_values[4];
  let clevel : Int :=
    if h : 5 ≤ cd_values.length then toInt32 (cd_values.get ⟨4, h⟩) else 5
  -- int doshuffle = 1; if (cd_nelmts >= 6) doshuffle = cd_values[5];
  let doshuffle : Int :=
    if h : 6 ≤ cd_values.length then toInt32 (cd_values.get ⟨5, h⟩) else 1
  -- char *compname = "blosclz";
  -- if (cd_nelmts >= 7) { compcode = cd_values[6];
  --   complist = blosc_list_compressors();
  --   code = blosc_compcode_to_compname(compcode, &compname);
  --   if (code == -1) { PUSH_ERR(...); /* 1.6.x API only: */ goto failed; } }
  if h : 7 ≤ cd_values.length then
    let compcode : Int := toInt32 (cd_values.get ⟨6, h⟩)
    match codec.blosc_compcode_to_compname compcode with
    | some name =>
      Except.ok
        { clevel := clevel, doshuffle := doshuffle, compname := some name,
          pushedErrors := [] }
    | none =>
      let e := FilterError.unsupportedCompressor compcode codec.blosc_list_compressors
      if cfg.h5epushVers2 then
        Except.ok
          { clevel := clevel, doshuffle := doshuffle, compname := none,
            pushedErrors := [e] }
      else Except.error e
  else
    Except.ok
      { clevel := clevel, doshuffle := doshuffle, compname := some "blosclz",
        pushedErrors := [] }

/-- The body of `blosc_filter` after the two unconditional slot reads
(source lines 267-387).  `typesize` is the value read from `cd_values[2]`;
the `cd_values[3]` read is performed by `blosc_filter` itself (the C variable
it initializes is dead: both directions overwrite `outbuf_size` before use).
`cd_nelmts` is `cd_values.length`. -/
def blosc_filter_run (cfg : FilterConfig) (codec : Codec) (flags : Nat)
    (cd_values : List Nat) (typesize : Nat) (nbytes : Nat)
    (buf_size : Nat) (buf : List Nat) : FilterOutcome :=
  match decodeParams cfg codec cd_values with
  | Except.error e => failedExit [e] none buf_size none none
  | Except.ok p =>
    if flags &&& H5Z_FLAG_REVERSE = 0 then
      -- We're compressing: outbuf_size = (*buf_size); outbuf = malloc(outbuf_size);
      let outbuf_size := buf_size
      if cfg.mallocOk then
        -- status = blosc_compress_ctx(clevel, doshuffle, typesize, nbytes,
        --                             *buf, outbuf, nbytes, compname, 0, 1);
        -- (the pre-1.5 blosc_compress variant passes the same sizes)
        let args : CompressArgs :=
          { clevel := p.clevel, doshuffle := p.doshuffle, typesize := typesize,
            nbytes := nbytes, src := buf, destsize := nbytes, compname := p.compname }
        let status := codec.blosc_compress_ctx args
        if status < 0 then
          -- PUSH_ERR("blosc_filter", H5E_CALLBACK, "Blosc compression error"); goto failed;
          failedExit (p.pushedErrors ++ [FilterError.compressError]) (some outbuf_size)
            buf_size (some args) none
        else if status ≠ 0 then
          -- if(status != 0){ free(*buf); *buf = outbuf; *buf_size = outbuf_size; return status; }
          { ret := status, bufReplaced := true, buf_size := outbuf_size,
            errors := p.pushedErrors, inputFreed := true, scratchAlloc := some outbuf_size,
            scratchFrees := 0, compressCall := some args, decompressCall := none }
        else
          -- status == 0 falls through to the failed: label (fallback, no error pushed)
          failedExit p.pushedErrors (some outbuf_size) buf_size (some args) none
      else
        -- PUSH_ERR("blosc_filter", H5E_CALLBACK, "Can't allocate compression buffer"); goto failed;
        failedExit (p.pushedErrors ++ [FilterError.allocCompress]) none buf_size none none
    else
      -- We're decompressing: free(outbuf);  /* outbuf == NULL here: no-op */
      -- blosc_cbuffer_sizes(*buf, &outbuf_size, &cbytes, &blocksize);
      let sizes := codec.blosc_cbuffer_sizes buf
      let outbuf_size := sizes.1
      if cfg.mallocOk then
        -- status = blosc_decompress_ctx(*buf, outbuf, outbuf_size, 1);
        let args : DecompressArgs := { src := buf, destsize := outbuf_size }
        let status := codec.blosc_decompress_ctx args
        if status ≤ 0 then
          -- PUSH_ERR("blosc_filter", H5E_CALLBACK, "Blosc decompression error"); goto failed;
          failedExit (p.pushedErrors ++ [FilterError.decompressError]) (some outbuf_size)
            buf_size none (some args)
        else
          -- status > 0 here, so the final if(status != 0) always succeeds
          { ret := status, bufReplaced := true, buf_size := outbuf_size,
            errors := p.pushedErrors, inputFreed := true, scratchAlloc := some outbuf_size,
            scratchFrees := 0, compressCall := none, decompressCall := some args }
      else
        -- PUSH_ERR("blosc_filter", H5E_CALLBACK, "Can't allocate decompression buffer"); goto failed;
        failedExit (p.pushedErrors ++ [FilterError.allocDecompress]) none buf_size none none

/-- Definition of `blosc_filter` (source lines 248-389).  The two reads
`typesize = cd_values[2]` and `outbuf_size = cd_values[3]` happen
unconditionally, before any check on `cd_nelmts`; they are modelled by
`Option`-returning indexing, so a parameter array with fewer than 4 slots
makes the whole call stuck (`none`) rather than reaching any exit of the
source.  `cd_nelmts` is `cd_values.length`. -/
def blosc_filter (cfg : FilterConfig) (codec : Codec) (flags : Nat)
    (cd_values : List Nat) (nbytes : Nat) (buf_size : Nat) (buf : List Nat) :
    Option FilterOutcome :=
  -- typesize = cd_values[2];      /* The datatype size */
  (cd_values[2]?).bind fun typesize =>
  -- outbuf_size = cd_values[3];   /* Precomputed buffer guess (dead: both
  --                                  directions overwrite it before use) */
  (cd_values[3]?).bind fun _outbuf_size_hint =>
  some (blosc_filter_run cfg codec flags cd_values typesize nbytes buf_size buf)

/-! Sample codecs, arguments and outcomes used by the concrete witness and
counterexample theorems below.  They are ordinary instantiations of the
opaque-codec interface. -/

/-- A sample codec: constant status `cstat` for compression, `dstat` for
decompression, a payload header reporting `hdr` uncompressed bytes, and a
registry supporting compressor codes 0 ("blosclz") and 1 ("lz4"). -/
def okCodec (cstat dstat : Int) (hdr : Nat) : Codec :=
  { blosc_compcode_to_compname := fun c =>
      if c = 0 then some "blosclz" else if c = 1 then some "lz4" else none
    blosc_list_compressors := "blosclz,lz4"
    blosc_compress_ctx := fun _ => cstat
    blosc_cbuffer_sizes := fun _ => (hdr, 64, 32)
    blosc_decompress_ctx := fun _ => dstat }

/-- The compress-call arguments produced by a 4-slot parameter array
`[2, 2, 4, 400]` on an empty input buffer with `nbytes = 400`. -/
def sampleCompressArgs : CompressArgs :=
  { clevel := 5, doshuffle := 1, typesize := 4, nbytes := 400, src := [],
    destsize := 400, compname := some "blosclz" }

/-- Placeholder compress arguments for the unused disjunct of a witness. -/
def dummyCompressArgs : CompressArgs :=
  { clevel := 0, doshuffle := 0, typesize := 0, nbytes := 0, src := [],
    destsize := 0, compname := none }

/-- Placeholder decompress arguments for the unused disjunct of a witness. -/
def dummyDecompressArgs : DecompressArgs := { src := [], destsize := 0 }

/-- Outcome of compressing with codec status 100: success, ownership
transferred. -/
def sampleSuccessOut : FilterOutcome :=
  { ret := 100, bufReplaced := true, buf_size := 400, errors := [],
    inputFreed := true, scratchAlloc := some 400, scratchFrees := 0,
    compressCall := some sampleCompressArgs, decompressCall := none }

/-- Outcome of decompressing with header size 500 and codec status 42. -/
def sampleDecompressOut : FilterOutcome :=
  { ret := 42, bufReplaced := true, buf_size := 500, errors := [],
    inputFreed := true, scratchAlloc := some 500, scratchFrees := 0,
    compressCall := none, decompressCall := some { src := [], destsize := 500 } }

/-- Outcome of a compression call whose `malloc` fails. -/
def sampleAllocFailOut : FilterOutcome :=
  { ret := 0, bufReplaced := false, buf_size := 400,
    errors := [FilterError.allocCompress], inputFreed := false,
    scratchAlloc := none, scratchFrees := 0, compressCall := none,
    decompressCall := none }

/-- Outcome of a compression call with codec status exactly 0: fallback. -/
def sampleFallbackOut : FilterOutcome :=
  { ret := 0, bufReplaced := false, buf_size := 400, errors := [],
    inputFreed := false, scratchAlloc := some 400, scratchFrees := 1,
    compressCall := some sampleCompressArgs, decompressCall := none }

/-- The size the source actually bases slot 2 of `blosc_set_local` on: the
immediate super type's size for an array type (exactly one level of
unwrapping, source lines 211-221), the type's own size otherwise. -/
def oneLevelBaseSize : Dtype → Nat
  | Dtype.scalar s => s
  | Dtype.array base _ => H5Tget_size base

/-! Helper lemmas shared by the claim theorems. -/

/-- On a parameter array with at least 4 slots, `blosc_filter` reduces to
`blosc_filter_run` with `typesize` taken from slot 2. -/
theorem blosc_filter_cons (cfg : FilterConfig) (codec : Codec) (flags : Nat)
    (v0 v1 v2 v3 : Nat) (rest : List Nat) (nbytes buf_size : Nat) (buf : List Nat) :
    blosc_filter cfg codec flags (v0 :: v1 :: v2 :: v3 :: rest) nbytes buf_size buf =
      some (blosc_filter_run cfg codec flags (v0 :: v1 :: v2 :: v3 :: rest) v2
        nbytes buf_size buf) := by
  simp [blosc_filter]

/-- Inversion for a returning `blosc_filter` call: the parameter array has at
least 4 slots and the outcome is `blosc_filter_run` on slot 2. -/
theorem blosc_filter_eq_some (cfg : FilterConfig) (codec : Codec) (flags : Nat)
    (cd_values : List Nat) (nbytes buf_size : Nat) (buf : List Nat) (out : FilterOutcome)
    (h : blosc_filter cfg codec flags cd_values nbytes buf_size buf = some out) :
    4 ≤ cd_values.length ∧ ∃ t, cd_values[2]? = some t ∧
      out = blosc_filter_run cfg codec flags cd_values t nbytes buf_size buf := by
  unfold blosc_filter at h
  cases h2 : cd_values[2]? with
  | none => rw [h2] at h; simp at h
  | some t =>
    rw [h2] at h
    cases h3 : cd_values[3]? with
    | none => rw [h3] at h; simp at h
    | some u =>
      rw [h3] at h
      simp at h
      refine ⟨?_, t, rfl, h.symm⟩
      rw [List.getElem?_eq_some] at h3
      obtain ⟨hb, _⟩ := h3
      omega

/-- The guarded slot-4 read equals the `getD` form. -/
theorem dite_slot4 (l : List Nat) :
    (if h : 5 ≤ l.length then toInt32 (l.get ⟨4, h⟩) else (5 : Int)) =
      if 5 ≤ l.length then toInt32 (l.getD 4 0) else 5 := by
  by_cases h5 : 5 ≤ l.length
  · rw [dif_pos h5, if_pos h5, List.get_eq_getElem, List.getD_eq_getElem l 0 h5]
  · rw [dif_neg h5, if_neg h5]

/-- The guarded slot-5 read equals the `getD` form. -/
theorem dite_slot5 (l : List Nat) :
    (if h : 6 ≤ l.length then toInt32 (l.get ⟨5, h⟩) else (1 : Int)) =
      if 6 ≤ l.length then toInt32 (l.getD 5 0) else 1 := by
  by_cases h6 : 6 ≤ l.length
  · rw [dif_pos h6, if_pos h6, List.get_eq_getElem, List.getD_eq_getElem l 0 h6]
  · rw [dif_neg h6, if_neg h6]

/-- A continuing decode's compression level is slot 4 when present, else 5. -/
theorem decodeParams_ok_clevel (cfg : FilterConfig) (codec : Codec) (l : List Nat)
    (p : DecodedParams) (h : decodeParams cfg codec l = Except.ok p) :
    p.clevel = if 5 ≤ l.length then toInt32 (l.getD 4 0) else 5 := by
  simp only [decodeParams] at h
  split at h
  · split at h
    · rw [Except.ok.injEq] at h; subst h; exact dite_slot4 l
    · split at h
      · rw [Except.ok.injEq] at h; subst h; exact dite_slot4 l
      · exact absurd h (by simp)
  · rw [Except.ok.injEq] at h; subst h; exact dite_slot4 l

/-- A continuing decode's shuffle flag is slot 5 when present, else 1. -/
theorem decodeParams_ok_doshuffle (cfg : FilterConfig) (codec : Codec) (l : List Nat)
    (p : DecodedParams) (h : decodeParams cfg codec l = Except.ok p) :
    p.doshuffle = if 6 ≤ l.length then toInt32 (l.getD 5 0) else 1 := by
  simp only [decodeParams] at h
  split at h
  · split at h
    · rw [Except.ok.injEq] at h; subst h; exact dite_slot5 l
    · split at h
      · rw [Except.ok.injEq] at h; subst h; exact dite_slot5 l
      · exact absurd h (by simp)
  · rw [Except.ok.injEq] at h; subst h; exact dite_slot5 l

/-- A continuing decode's compname is the registry's answer for slot 6 when
present, else the baseline "blosclz". -/
theorem decodeParams_ok_compname (cfg : FilterConfig) (codec : Codec) (l : List Nat)
    (p : DecodedParams) (h : decodeParams cfg codec l = Except.ok p) :
    p.compname = if 7 ≤ l.length then
        codec.blosc_compcode_to_compname (toInt32 (l.getD 6 0))
      else some "blosclz" := by
  simp only [decodeParams] at h
  split at h
  next h7 =>
    have hg : toInt32 (l.getD 6 0) = toInt32 (l.get ⟨6, h7⟩) := by
      rw [List.get_eq_getElem, List.getD_eq_getElem l 0 h7]
    split at h
    next name hname =>
      rw [Except.ok.injEq] at h; subst h
      rw [if_pos h7, hg, hname]
    next hname =>
      split at h
      · rw [Except.ok.injEq] at h; subst h
        rw [if_pos h7, hg, hname]
      · exact absurd h (by simp)
  next h7 =>
    rw [Except.ok.injEq] at h; subst h
    rw [if_neg h7]

/-- When any slot-6 compressor id resolves, the decode phase pushes no
errors. -/
theorem decodeParams_ok_noPushedErrors (cfg : FilterConfig) (codec : Codec)
    (l : List Nat) (p : DecodedParams) (h : decodeParams cfg codec l = Except.ok p)
    (hres : 7 ≤ l.length →
      (codec.blosc_compcode_to_compname (toInt32 (l.getD 6 0))).isSome = true) :
    p.pushedErrors = [] := by
  simp only [decodeParams] at h
  split at h
  next h7 =>
    have hg : toInt32 (l.getD 6 0) = toInt32 (l.get ⟨6, h7⟩) := by
      rw [List.get_eq_getElem, List.getD_eq_getElem l 0 h7]
    split at h
    next name hname =>
      rw [Except.ok.injEq] at h; subst h; rfl
    next hname =>
      exact absurd (hres h7) (by rw [hg, hname]; simp)
  next h7 =>
    rw [Except.ok.injEq] at h; subst h; rfl

/-- An aborting decode means slot 6 is present and unresolvable. -/
theorem decodeParams_error (cfg : FilterConfig) (codec : Codec) (l : List Nat)
    (e : FilterError) (h : decodeParams cfg codec l = Except.error e) :
    7 ≤ l.length ∧ codec.blosc_compcode_to_compname (toInt32 (l.getD 6 0)) = none := by
  simp only [decodeParams] at h
  split at h
  next h7 =>
    have hg : toInt32 (l.getD 6 0) = toInt32 (l.get ⟨6, h7⟩) := by
      rw [List.get_eq_getElem, List.getD_eq_getElem l 0 h7]
    split at h
    · exact absurd h (by simp)
    next hname =>
      split at h
      · exact absurd h (by simp)
      · exact ⟨h7, by rw [hg]; exact hname⟩
  next h7 => exact absurd h (by simp)

/-- The decode phase never reads slot 3. -/
theorem decodeParams_set3 (cfg : FilterConfig) (codec : Codec) (l : List Nat) (x : Nat) :
    decodeParams cfg codec (l.set 3 x) = decodeParams cfg codec l := by
  simp only [decodeParams, List.length_set, List.get_eq_getElem,
    List.getElem_set_ne (by omega : (3 : Nat) ≠ 4),
    List.getElem_set_ne (by omega : (3 : Nat) ≠ 5),
    List.getElem_set_ne (by omega : (3 : Nat) ≠ 6)]

/-- The whole post-read body of the filter never reads slot 3. -/
theorem blosc_filter_run_set3 (cfg : FilterConfig) (codec : Codec) (flags : Nat)
    (cd_values : List Nat) (x : Nat) (typesize nbytes buf_size : Nat) (buf : List Nat) :
    blosc_filter_run cfg codec flags (cd_values.set 3 x) typesize nbytes buf_size buf =
      blosc_filter_run cfg codec flags cd_values typesize nbytes buf_size buf := by
  simp only [blosc_filter_run, decodeParams_set3]

/-- Multiplying through a list with a reduction at every step equals one
reduction of the full product (the `bufsize` loop of `blosc_set_local`). -/
theorem foldl_mul_mod (m init : Nat) (l : List Nat) :
    l.foldl (fun b d => b * d % m) (init % m) = init * l.prod % m := by
  induction l generalizing init with
  | nil => simp
  | cons d t ih =>
    simp only [List.foldl_cons, List.prod_cons]
    rw [Nat.mod_mul_mod, ih (init * d), Nat.mul_assoc]

/-! The claim theorems. -/

/-- C1: the claim states that an unresolvable slot-6 compressor id always
aborts the chunk operation (return 0) after reporting the error.  Under the
`H5Epush_vers == 2` build (HDF5 1.8.x) the source pushes the error but the
`goto failed` sits only in the 1.6.x preprocessor branch, so the call goes on
to invoke the codec (with the NULL compname left by
`blosc_compcode_to_compname`) and here returns the codec's status 100 instead
of the zero/failed signal: the code contradicts the claim at this input. -/
theorem blosc_filter_unsupported_compcode_not_aborted :
    (blosc_filter ⟨true, true⟩ (okCodec 100 42 500) 0 [2, 2, 4, 400, 5, 1, 99]
        400 400 []).map (fun o => (o.ret, o.errors, o.compressCall.isSome)) =
      some (100, [FilterError.unsupportedCompressor 99 "blosclz,lz4"], true) ∧
    (100 : Int) ≠ 0 :=
  ⟨by decide, by decide⟩

/-- C2: on a decompression call, both the capacity of the scratch output
buffer and the destination size handed to the codec's inverse operation are
the uncompressed size read from the payload's self-describing header
(`blosc_cbuffer_sizes`), and the whole outcome is wholly independent of the
slot-3 hint, even though that hint was read earlier in the call. -/
theorem blosc_filter_decompress_size_from_header (cfg : FilterConfig) (codec : Codec)
    (flags : Nat) (cd_values : List Nat) (nbytes buf_size : Nat) (buf : List Nat)
    (hint : Nat) (out : FilterOutcome) (args : DecompressArgs)
    (_hrev : flags &&& H5Z_FLAG_REVERSE ≠ 0)
    (h : blosc_filter cfg codec flags cd_values nbytes buf_size buf = some out)
    (ha : out.decompressCall = some args) :
    args.destsize = (codec.blosc_cbuffer_sizes buf).1 ∧
    out.scratchAlloc = some (codec.blosc_cbuffer_sizes buf).1 ∧
    blosc_filter cfg codec flags (cd_values.set 3 hint) nbytes buf_size buf = some out := by
  obtain ⟨hlen, t, h2, hout⟩ :=
    blosc_filter_eq_some cfg codec flags cd_values nbytes buf_size buf out h
  have hset : blosc_filter cfg codec flags (cd_values.set 3 hint) nbytes buf_size buf
      = some out := by
    unfold blosc_filter
    rw [List.getElem?_set_ne (by omega : (3 : Nat) ≠ 2), h2,
      List.getElem?_set_eq_of_lt hint (by omega)]
    show some (blosc_filter_run cfg codec flags (cd_values.set 3 hint) t
      nbytes buf_size buf) = some out
    rw [blosc_filter_run_set3, ← hout]
  refine ⟨?_, ?_, hset⟩ <;>
  · simp only [blosc_filter_run] at hout
    split at hout
    next e heq => subst hout; simp [failedExit] at ha
    next p heq =>
      split at hout
      · split at hout
        · split at hout
          · subst hout; simp [failedExit] at ha
          · split at hout
            · subst hout; simp at ha
            · subst hout; simp [failedExit] at ha
        · subst hout; simp [failedExit] at ha
      · split at hout
        · split at hout
          · subst hout
            simp only [failedExit] at ha
            have haa := Option.some.inj ha
            subst haa
            simp [failedExit]
          · subst hout
            have haa := Option.some.inj ha
            subst haa
            simp
        · subst hout; simp [failedExit] at ha

/-- Witness for C2: decompressing (`flags = 256`) with a codec whose payload
header reports 500 bytes allocates 500, passes 500 to the codec, and is
unaffected by overwriting the slot-3 hint with 999. -/
theorem blosc_filter_decompress_size_from_header_witness :
    ((256 : Nat) &&& H5Z_FLAG_REVERSE ≠ 0) ∧
    blosc_filter ⟨true, true⟩ (okCodec 100 42 500) 256 [2, 2, 4, 400] 400 400 [] =
      some sampleDecompressOut ∧
    sampleDecompressOut.decompressCall = some { src := [], destsize := 500 } ∧
    (({ src := [], destsize := 500 } : DecompressArgs).destsize =
        ((okCodec 100 42 500).blosc_cbuffer_sizes []).1 ∧
      sampleDecompressOut.scratchAlloc =
        some ((okCodec 100 42 500).blosc_cbuffer_sizes []).1 ∧
      blosc_filter ⟨true, true⟩ (okCodec 100 42 500) 256
        (([2, 2, 4, 400] : List Nat).set 3 999) 400 400 [] = some sampleDecompressOut) :=
  ⟨by decide, by decide, by decide,
    blosc_filter_decompress_size_from_header ⟨true, true⟩ (okCodec 100 42 500) 256
      [2, 2, 4, 400] 400 400 [] 999 sampleDecompressOut { src := [], destsize := 500 }
      (by decide) (by decide) (by decide)⟩

/-- C3: on every failed exit — allocation failure, negative codec status
during compression, or non-positive codec status during decompression — the
filter returns 0, leaves `*buf` and `*buf_size` untouched, does not free the
caller's input, has pushed at least one error, and has freed the scratch
buffer exactly once when one was allocated (and there is nothing to free
otherwise); in particular a non-positive decompression status is always a
failure, never a fallback. -/
theorem blosc_filter_failed_exit_protocol (cfg : FilterConfig) (codec : Codec)
    (flags : Nat) (cd_values : List Nat) (nbytes buf_size : Nat) (buf : List Nat)
    (out : FilterOutcome) (a : CompressArgs) (b : DecompressArgs)
    (h : blosc_filter cfg codec flags cd_values nbytes buf_size buf = some out)
    (hfail : cfg.mallocOk = false ∨
      (out.compressCall = some a ∧ codec.blosc_compress_ctx a < 0) ∨
      (out.decompressCall = some b ∧ codec.blosc_decompress_ctx b ≤ 0)) :
    out.ret = 0 ∧ out.bufReplaced = false ∧ out.buf_size = buf_size ∧
    out.inputFreed = false ∧ out.errors ≠ [] ∧
    out.scratchFrees = (if out.scratchAlloc.isSome then 1 else 0) := by
  obtain ⟨hlen, t, h2, hout⟩ :=
    blosc_filter_eq_some cfg codec flags cd_values nbytes buf_size buf out h
  simp only [blosc_filter_run] at hout
  split at hout
  next e heq => subst hout; simp [failedExit]
  next p heq =>
    split at hout
    · split at hout
      · split at hout
        · subst hout; simp [failedExit]
        · split at hout
          · subst hout
            rcases hfail with hm | ⟨hca, hcs⟩ | ⟨hda, hds⟩
            · simp_all
            · have haa := Option.some.inj hca
              subst haa
              simp_all
            · simp at hda
          · subst hout
            rcases hfail with hm | ⟨hca, hcs⟩ | ⟨hda, hds⟩
            · simp_all
            · simp only [failedExit] at hca
              have haa := Option.some.inj hca
              subst haa
              simp_all
            · simp [failedExit] at hda
      · subst hout; simp [failedExit]
    · split at hout
      · split at hout
        · subst hout; simp [failedExit]
        · subst hout
          rcases hfail with hm | ⟨hca, hcs⟩ | ⟨hda, hds⟩
          · simp_all
          · simp at hca
          · have haa := Option.some.inj hda
            subst haa
            simp_all
      · subst hout; simp [failedExit]

/-- Witness for C3: a compression call whose `malloc` fails returns 0 with an
error pushed, the caller's buffer untouched and nothing allocated to free. -/
theorem blosc_filter_failed_exit_protocol_witness :
    blosc_filter ⟨true, false⟩ (okCodec 100 42 500) 0 [2, 2, 4, 400] 400 400 [] =
      some sampleAllocFailOut ∧
    ((⟨true, false⟩ : FilterConfig).mallocOk = false ∨
      (sampleAllocFailOut.compressCall = some dummyCompressArgs ∧
        (okCodec 100 42 500).blosc_compress_ctx dummyCompressArgs < 0) ∨
      (sampleAllocFailOut.decompressCall = some dummyDecompressArgs ∧
        (okCodec 100 42 500).blosc_decompress_ctx dummyDecompressArgs ≤ 0)) ∧
    (sampleAllocFailOut.ret = 0 ∧ sampleAllocFailOut.bufReplaced = false ∧
      sampleAllocFailOut.buf_size = 400 ∧ sampleAllocFailOut.inputFreed = false ∧
      sampleAllocFailOut.errors ≠ [] ∧
      sampleAllocFailOut.scratchFrees =
        (if sampleAllocFailOut.scratchAlloc.isSome then 1 else 0)) :=
  ⟨by decide, Or.inl (by decide),
    blosc_filter_failed_exit_protocol ⟨true, false⟩ (okCodec 100 42 500) 0
      [2, 2, 4, 400] 400 400 [] sampleAllocFailOut dummyCompressArgs
      dummyDecompressArgs (by decide) (Or.inl (by decide))⟩

/-- C4: a compression call on which the codec reports status exactly 0
returns 0 with `*buf` and `*buf_size` untouched, the input buffer not freed,
no error reported (provided the compressor id resolved during decoding), and
the scratch buffer — allocated with capacity `*buf_size` — freed exactly
once: the host then stores the chunk uncompressed (fallback). -/
theorem blosc_filter_zero_status_fallback (cfg : FilterConfig) (codec : Codec)
    (flags : Nat) (cd_values : List Nat) (nbytes buf_size : Nat) (buf : List Nat)
    (out : FilterOutcome) (a : CompressArgs)
    (h : blosc_filter cfg codec flags cd_values nbytes buf_size buf = some out)
    (ha : out.compressCall = some a)
    (hz : codec.blosc_compress_ctx a = 0)
    (hres : 7 ≤ cd_values.length →
      (codec.blosc_compcode_to_compname (toInt32 (cd_values.getD 6 0))).isSome = true) :
    out.ret = 0 ∧ out.bufReplaced = false ∧ out.buf_size = buf_size ∧
    out.inputFreed = false ∧ out.errors = [] ∧
    out.scratchAlloc = some buf_size ∧ out.scratchFrees = 1 := by
  obtain ⟨hlen, t, h2, hout⟩ :=
    blosc_filter_eq_some cfg codec flags cd_values nbytes buf_size buf out h
  simp only [blosc_filter_run] at hout
  split at hout
  next e heq => subst hout; simp [failedExit] at ha
  next p heq =>
    have hpe := decodeParams_ok_noPushedErrors cfg codec cd_values p heq hres
    split at hout
    · split at hout
      · split at hout
        · subst hout
          simp only [failedExit] at ha
          have haa := Option.some.inj ha
          subst haa
          simp_all
        · split at hout
          · subst hout
            have haa := Option.some.inj ha
            subst haa
            simp_all
          · subst hout
            simp [failedExit, hpe]
      · subst hout; simp [failedExit] at ha
    · split at hout
      · split at hout
        · subst hout; simp [failedExit] at ha
        · subst hout; simp at ha
      · subst hout; simp [failedExit] at ha

/-- Witness for C4: a codec reporting status 0 on a 4-slot compression call
yields the fallback outcome: return 0, buffer untouched, no error, one free
of the 400-byte scratch buffer. -/
theorem blosc_filter_zero_status_fallback_witness :
    blosc_filter ⟨true, true⟩ (okCodec 0 42 500) 0 [2, 2, 4, 400] 400 400 [] =
      some sampleFallbackOut ∧
    sampleFallbackOut.compressCall = some sampleCompressArgs ∧
    (okCodec 0 42 500).blosc_compress_ctx sampleCompressArgs = 0 ∧
    (sampleFallbackOut.ret = 0 ∧ sampleFallbackOut.bufReplaced = false ∧
      sampleFallbackOut.buf_size = 400 ∧ sampleFallbackOut.inputFreed = false ∧
      sampleFallbackOut.errors = [] ∧ sampleFallbackOut.scratchAlloc = some 400 ∧
      sampleFallbackOut.scratchFrees = 1) :=
  ⟨by decide, by decide, by decide,
    blosc_filter_zero_status_fallback ⟨true, true⟩ (okCodec 0 42 500) 0 [2, 2, 4, 400]
      400 400 [] sampleFallbackOut sampleCompressArgs (by decide) (by decide)
      (by decide) (by decide)⟩

/-- C5: whenever the codec call (compress or decompress) reports a positive
status, the filter frees the caller's input buffer, stores the newly
allocated output buffer into `*buf`, sets `*buf_size` to that buffer's
capacity, and returns the codec's status as the logical result length. -/
theorem blosc_filter_positive_status_success (cfg : FilterConfig) (codec : Codec)
    (flags : Nat) (cd_values : List Nat) (nbytes buf_size : Nat) (buf : List Nat)
    (out : FilterOutcome) (a : CompressArgs) (b : DecompressArgs)
    (h : blosc_filter cfg codec flags cd_values nbytes buf_size buf = some out)
    (hpos : (out.compressCall = some a ∧ 0 < codec.blosc_compress_ctx a) ∨
      (out.decompressCall = some b ∧ 0 < codec.blosc_decompress_ctx b)) :
    out.inputFreed = true ∧ out.bufReplaced = true ∧
    out.scratchAlloc = some out.buf_size ∧ out.scratchFrees = 0 ∧ 0 < out.ret ∧
    ((out.compressCall = some a ∧ out.ret = codec.blosc_compress_ctx a) ∨
     (out.decompressCall = some b ∧ out.ret = codec.blosc_decompress_ctx b)) := by
  obtain ⟨hlen, t, h2, hout⟩ :=
    blosc_filter_eq_some cfg codec flags cd_values nbytes buf_size buf out h
  simp only [blosc_filter_run] at hout
  split at hout
  next e heq =>
    subst hout
    rcases hpos with ⟨hca, hcs⟩ | ⟨hda, hds⟩
    · simp [failedExit] at hca
    · simp [failedExit] at hda
  next p heq =>
    split at hout <;> split at hout <;> try split at hout
    all_goals try split at hout
    all_goals subst hout
    all_goals rcases hpos with ⟨hca, hcs⟩ | ⟨hda, hds⟩
    all_goals first
      | (simp [failedExit] at hca; done)
      | (simp [failedExit] at hda; done)
      | (simp only [failedExit, Option.some.injEq] at hca
         subst hca
         first
           | exact ⟨rfl, rfl, rfl, rfl, hcs, Or.inl ⟨rfl, rfl⟩⟩
           | exact absurd hcs (by omega))
      | (simp only [failedExit, Option.some.injEq] at hda
         subst hda
         first
           | exact ⟨rfl, rfl, rfl, rfl, hds, Or.inr ⟨rfl, rfl⟩⟩
           | exact absurd hds (by omega))

/-- Witness for C5: a compression call with codec status 100 transfers
ownership: input freed, buffer replaced, `*buf_size` set to the scratch
capacity, and 100 returned. -/
theorem blosc_filter_positive_status_success_witness :
    blosc_filter ⟨true, true⟩ (okCodec 100 42 500) 0 [2, 2, 4, 400] 400 400 [] =
      some sampleSuccessOut ∧
    (sampleSuccessOut.compressCall = some sampleCompressArgs ∧
      0 < (okCodec 100 42 500).blosc_compress_ctx sampleCompressArgs) ∧
    (sampleSuccessOut.inputFreed = true ∧ sampleSuccessOut.bufReplaced = true ∧
      sampleSuccessOut.scratchAlloc = some sampleSuccessOut.buf_size ∧
      sampleSuccessOut.scratchFrees = 0 ∧ 0 < sampleSuccessOut.ret ∧
      ((sampleSuccessOut.compressCall = some sampleCompressArgs ∧
          sampleSuccessOut.ret =
            (okCodec 100 42 500).blosc_compress_ctx sampleCompressArgs) ∨
        (sampleSuccessOut.decompressCall = some dummyDecompressArgs ∧
          sampleSuccessOut.ret =
            (okCodec 100 42 500).blosc_decompress_ctx dummyDecompressArgs))) :=
  ⟨by decide, ⟨by decide, by decide⟩,
    blosc_filter_positive_status_success ⟨true, true⟩ (okCodec 100 42 500) 0
      [2, 2, 4, 400] 400 400 [] sampleSuccessOut sampleCompressArgs
      dummyDecompressArgs (by decide) (Or.inl ⟨by decide, by decide⟩)⟩

/-- C6: the optional parameters are substituted monotonically by array
length: the level used is slot 4 when `cd_nelmts >= 5` and 5 otherwise, the
shuffle flag is slot 5 when `cd_nelmts >= 6` and 1 otherwise, and the
compressor name handed to the codec is the registry's resolution of slot 6
when `cd_nelmts >= 7` and the baseline "blosclz" otherwise. -/
theorem blosc_filter_optional_param_defaults (cfg : FilterConfig) (codec : Codec)
    (flags : Nat) (cd_values : List Nat) (nbytes buf_size : Nat) (buf : List Nat)
    (out : FilterOutcome) (args : CompressArgs)
    (h : blosc_filter cfg codec flags cd_values nbytes buf_size buf = some out)
    (ha : out.compressCall = some args) :
    args.clevel = (if 5 ≤ cd_values.length then toInt32 (cd_values.getD 4 0) else 5) ∧
    args.doshuffle = (if 6 ≤ cd_values.length then toInt32 (cd_values.getD 5 0) else 1) ∧
    args.compname = (if 7 ≤ cd_values.length then
        codec.blosc_compcode_to_compname (toInt32 (cd_values.getD 6 0))
      else some "blosclz") := by
  obtain ⟨hlen, t, h2, hout⟩ :=
    blosc_filter_eq_some cfg codec flags cd_values nbytes buf_size buf out h
  subst hout
  simp only [blosc_filter_run] at ha
  split at ha
  next e heq => simp [failedExit] at ha
  next p heq =>
    have hc := decodeParams_ok_clevel cfg codec cd_values p heq
    have hd := decodeParams_ok_doshuffle cfg codec cd_values p heq
    have hn := decodeParams_ok_compname cfg codec cd_values p heq
    split at ha
    · split at ha
      · split at ha
        · simp only [failedExit] at ha
          rw [Option.some.injEq] at ha
          subst ha
          exact ⟨hc, hd, hn⟩
        · split at ha
          · have haa := Option.some.inj ha
            subst haa
            exact ⟨hc, hd, hn⟩
          · simp only [failedExit] at ha
            rw [Option.some.injEq] at ha
            subst ha
            exact ⟨hc, hd, hn⟩
      · simp [failedExit] at ha
    · split at ha
      · split at ha
        · simp [failedExit] at ha
        · simp at ha
      · simp [failedExit] at ha

/-- Witness for C6: with the 4-slot array `[2, 2, 4, 400]` all three optional
parameters take their defaults: level 5, shuffle 1, compressor "blosclz". -/
theorem blosc_filter_optional_param_defaults_witness :
    blosc_filter ⟨true, true⟩ (okCodec 100 42 500) 0 [2, 2, 4, 400] 400 400 [] =
      some sampleSuccessOut ∧
    sampleSuccessOut.compressCall = some sampleCompressArgs ∧
    (sampleCompressArgs.clevel =
        (if 5 ≤ ([2, 2, 4, 400] : List Nat).length then
          toInt32 (([2, 2, 4, 400] : List Nat).getD 4 0) else 5) ∧
      sampleCompressArgs.doshuffle =
        (if 6 ≤ ([2, 2, 4, 400] : List Nat).length then
          toInt32 (([2, 2, 4, 400] : List Nat).getD 5 0) else 1) ∧
      sampleCompressArgs.compname =
        (if 7 ≤ ([2, 2, 4, 400] : List Nat).length then
          (okCodec 100 42 500).blosc_compcode_to_compname
            (toInt32 (([2, 2, 4, 400] : List Nat).getD 6 0))
        else some "blosclz")) :=
  ⟨by decide, by decide,
    blosc_filter_optional_param_defaults ⟨true, true⟩ (okCodec 100 42 500) 0
      [2, 2, 4, 400] 400 400 [] sampleSuccessOut sampleCompressArgs
      (by decide) (by decide)⟩

/-- C7 counterexample: the claim says slot 2 equals the size of the innermost
scalar for array types (clamped to 1 above `BLOSC_MAX_TYPESIZE`).  For the
nested array type `array (array (scalar 4) 10) 5` the innermost scalar has
size 4 (not above the maximum, so the claim demands slot 2 = 4), but the
source unwraps exactly one level (`H5Tget_super`) and stores 40. -/
theorem blosc_set_local_innermost_scalar_cex :
    blosc_set_local (Dtype.array (Dtype.array (Dtype.scalar 4) 10) 5) [1] [] =
      some [FILTER_BLOSC_VERSION, BLOSC_VERSION_FORMAT, 40, 200] ∧
    baseScalarSize (Dtype.array (Dtype.array (Dtype.scalar 4) 10) 5) = 4 ∧
    ¬ BLOSC_MAX_TYPESIZE <
        baseScalarSize (Dtype.array (Dtype.array (Dtype.scalar 4) 10) 5) ∧
    (40 : Nat) ≠ 4 := by decide

/-- C7 (amended): slot 2 equals the size of the type's immediate super type
when the type is an array type (one level of unwrapping — for nested array
types this is the inner array's total size, not the innermost scalar), and
the type's own size otherwise, read into a 32-bit unsigned variable
(mod 2^32); whenever that value exceeds `BLOSC_MAX_TYPESIZE`, slot 2 is
recorded as 1. -/
theorem blosc_set_local_slot2_one_level_clamped (dtype : Dtype)
    (chunkdims existing vals : List Nat)
    (h : blosc_set_local dtype chunkdims existing = some vals) :
    vals[2]? = some (if BLOSC_MAX_TYPESIZE < oneLevelBaseSize dtype % uint32Mod then 1
      else oneLevelBaseSize dtype % uint32Mod) := by
  simp only [blosc_set_local] at h
  split at h
  · exact absurd h (by simp)
  · split at h
    next htz => exact absurd h (by simp)
    next htz =>
      rw [Option.some.injEq] at h
      subst h
      rw [List.getElem?_take, if_pos (by split <;> omega),
        List.getElem?_set_ne (by omega), List.getElem?_set_eq_of_lt]
      · cases dtype with
        | scalar s => simp [oneLevelBaseSize, H5Tget_size]
        | array base n => simp [oneLevelBaseSize]
      · simp [List.length_set, List.length_append, List.length_take,
          List.length_replicate]
        omega

/-- Witness for C7 (amended): a plain scalar of size 300 exceeds
`BLOSC_MAX_TYPESIZE` and is recorded as 1 in slot 2. -/
theorem blosc_set_local_slot2_one_level_clamped_witness :
    blosc_set_local (Dtype.scalar 300) [10] [] =
      some [FILTER_BLOSC_VERSION, BLOSC_VERSION_FORMAT, 1, 3000] ∧
    ([FILTER_BLOSC_VERSION, BLOSC_VERSION_FORMAT, 1, 3000] : List Nat)[2]? =
      some (if BLOSC_MAX_TYPESIZE < oneLevelBaseSize (Dtype.scalar 300) % uint32Mod
        then 1 else oneLevelBaseSize (Dtype.scalar 300) % uint32Mod) :=
  ⟨by decide, blosc_set_local_slot2_one_level_clamped (Dtype.scalar 300) [10] []
    [FILTER_BLOSC_VERSION, BLOSC_VERSION_FORMAT, 1, 3000] (by decide)⟩

/-- C8 counterexample: the claim says slot 3 equals element size times the
product of the chunk extents.  The source computes it in a 32-bit
`unsigned int`, so for element size 65536 and chunk shape (65536) the true
product is 2^32 = 4294967296 but slot 3 is recorded as 0. -/
theorem blosc_set_local_slot3_overflow_cex :
    blosc_set_local (Dtype.scalar 65536) [65536] [] =
      some [FILTER_BLOSC_VERSION, BLOSC_VERSION_FORMAT, 1, 0] ∧
    H5Tget_size (Dtype.scalar 65536) * ([65536] : List Nat).prod = 4294967296 ∧
    (0 : Nat) ≠ 4294967296 := by decide

/-- C8 (amended): slot 3 equals the element type size times the product of
all chunk dimension extents, reduced mod 2^32 (the computation is carried out
in a 32-bit `unsigned int`); in particular for chunk shape (10, 10) and
element size 4 the value is 400, as the claim's example states. -/
theorem blosc_set_local_slot3_mod_32 (dtype : Dtype) (chunkdims existing vals : List Nat)
    (h : blosc_set_local dtype chunkdims existing = some vals) :
    vals[3]? = some (H5Tget_size dtype * chunkdims.prod % uint32Mod) := by
  simp only [blosc_set_local] at h
  split at h
  · exact absurd h (by simp)
  · split at h
    · exact absurd h (by simp)
    · rw [Option.some.injEq] at h
      subst h
      rw [List.getElem?_take, if_pos (by split <;> omega),
        List.getElem?_set_eq_of_lt, foldl_mul_mod]
      simp [List.length_set, List.length_append, List.length_take,
        List.length_replicate]
      omega

/-- Witness for C8 (amended): chunk shape (10, 10) with element size 4 stores
400 in slot 3, matching the claim's example. -/
theorem blosc_set_local_slot3_mod_32_witness :
    blosc_set_local (Dtype.scalar 4) [10, 10] [] =
      some [FILTER_BLOSC_VERSION, BLOSC_VERSION_FORMAT, 4, 400] ∧
    ([FILTER_BLOSC_VERSION, BLOSC_VERSION_FORMAT, 4, 400] : List Nat)[3]? =
      some (H5Tget_size (Dtype.scalar 4) * ([10, 10] : List Nat).prod % uint32Mod) :=
  ⟨by decide, blosc_set_local_slot3_mod_32 (Dtype.scalar 4) [10, 10] []
    [FILTER_BLOSC_VERSION, BLOSC_VERSION_FORMAT, 4, 400] (by decide)⟩

/-- C9: on a compression call the scratch output buffer is allocated with
capacity `*buf_size` (the caller-declared capacity, not the logical input
length), the destination limit handed to the codec is `nbytes`, and under the
host's calling convention `nbytes <= *buf_size` that limit never exceeds the
caller-declared capacity. -/
theorem blosc_filter_compress_capacity (cfg : FilterConfig) (codec : Codec)
    (flags : Nat) (cd_values : List Nat) (nbytes buf_size : Nat) (buf : List Nat)
    (out : FilterOutcome)
    (hfwd : flags &&& H5Z_FLAG_REVERSE = 0)
    (h : blosc_filter cfg codec flags cd_values nbytes buf_size buf = some out)
    (hm : cfg.mallocOk = true)
    (hres : 7 ≤ cd_values.length →
      (codec.blosc_compcode_to_compname (toInt32 (cd_values.getD 6 0))).isSome = true)
    (hnb : nbytes ≤ buf_size) :
    out.scratchAlloc = some buf_size ∧
    out.compressCall.map CompressArgs.destsize = some nbytes ∧
    (out.compressCall.map CompressArgs.destsize).getD 0 ≤ buf_size := by
  obtain ⟨hlen, t, h2, hout⟩ :=
    blosc_filter_eq_some cfg codec flags cd_values nbytes buf_size buf out h
  simp only [blosc_filter_run] at hout
  split at hout
  next e heq =>
    obtain ⟨h7, hn⟩ := decodeParams_error cfg codec cd_values e heq
    exact absurd (hres h7) (by rw [hn]; simp)
  next p heq =>
    split at hout <;> split at hout <;> try split at hout
    all_goals subst hout
    all_goals first
      | (simp_all; done)
      | exact ⟨rfl, rfl, by simpa [failedExit] using hnb⟩

/-- Witness for C9: compressing 400 logical bytes into a 400-byte declared
capacity allocates exactly 400 and announces the 400-byte limit to the
codec. -/
theorem blosc_filter_compress_capacity_witness :
    ((0 : Nat) &&& H5Z_FLAG_REVERSE = 0) ∧
    blosc_filter ⟨true, true⟩ (okCodec 100 42 500) 0 [2, 2, 4, 400] 400 400 [] =
      some sampleSuccessOut ∧
    (400 : Nat) ≤ 400 ∧
    (sampleSuccessOut.scratchAlloc = some 400 ∧
      sampleSuccessOut.compressCall.map CompressArgs.destsize = some 400 ∧
      (sampleSuccessOut.compressCall.map CompressArgs.destsize).getD 0 ≤ 400) :=
  ⟨by decide, by decide, by decide,
    blosc_filter_compress_capacity ⟨true, true⟩ (okCodec 100 42 500) 0 [2, 2, 4, 400]
      400 400 [] sampleSuccessOut (by decide) (by decide) (by decide) (by decide)
      (by decide)⟩

/-- C10: the two reads `cd_values[2]` and `cd_values[3]` happen before and
regardless of any `cd_nelmts` check, so the embedded call returns an outcome
exactly when the parameter array has at least 4 slots; with fewer than 4
slots the `Option`-returning slot reads fail and there is no error-reporting
exit at all. -/
theorem blosc_filter_requires_four_slots (cfg : FilterConfig) (codec : Codec)
    (flags : Nat) (cd_values : List Nat) (nbytes buf_size : Nat) (buf : List Nat) :
    (blosc_filter cfg codec flags cd_values nbytes buf_size buf).isSome ↔
      4 ≤ cd_values.length := by
  rcases cd_values with _ | ⟨v0, _ | ⟨v1, _ | ⟨v2, _ | ⟨v3, rest⟩⟩⟩⟩
  · simp [blosc_filter]
  · simp [blosc_filter]
  · simp [blosc_filter]
  · simp [blosc_filter]
  · rw [blosc_filter_cons]
    simp
